import Mathlib

/-!
Verification development for the sketch-to-solid geometry kernel of a 3D
modeling tool.  The embedding models, over exact rationals, the code of:

* `ExtrusionEngine` (`src/three/extrusion`, the merge-based engine):
  `extrudeSketch`, `computeNormal`;
* `SketchEngine3D` (`src/utils/sketch3d`): the sketch capture state machine
  (`setTool`, `finishCurrentSketch`, `finishPolygon`, `addPolygonPoint`,
  `handleDoubleClick`, `snapPointToGrid`, `getShapes`);
* the `OffsetEngine` interface, whose implementation is not among the
  available sources and is therefore modelled from the specification.

Floating-point arithmetic of the source is modelled by exact rational
arithmetic; `normalize` of a nonzero vector is modelled by keeping the
unnormalized direction (normalization only rescales by a positive factor,
which no settled property inspects).
-/

/-- 3D vector with rational coordinates, modelling `THREE.Vector3`. -/
structure Vec3 where
  x : ℚ
  y : ℚ
  z : ℚ
deriving DecidableEq, Repr

instance : Zero Vec3 := ⟨⟨0, 0, 0⟩⟩

instance : Add Vec3 := ⟨fun a b => ⟨a.x + b.x, a.y + b.y, a.z + b.z⟩⟩

instance : Sub Vec3 := ⟨fun a b => ⟨a.x - b.x, a.y - b.y, a.z - b.z⟩⟩

instance : SMul ℚ Vec3 := ⟨fun c v => ⟨c * v.x, c * v.y, c * v.z⟩⟩

/-- Cross product, modelling `THREE.Vector3.crossVectors`. -/
def Vec3.cross (a b : Vec3) : Vec3 :=
  ⟨a.y * b.z - a.z * b.y, a.z * b.x - a.x * b.z, a.x * b.y - a.y * b.x⟩

/-- Dot product, modelling `THREE.Vector3.dot`. -/
def Vec3.dot (a b : Vec3) : ℚ :=
  a.x * b.x + a.y * b.y + a.z * b.z

/-- Squared length, modelling `THREE.Vector3.lengthSq`. -/
def Vec3.lengthSq (v : Vec3) : ℚ :=
  v.dot v

/-- A picked sketch point (`SketchPoint3D` of `src/utils/sketch3d`): a world
position plus an identifier string and an on-surface flag. -/
structure SketchPoint3D where
  position : Vec3
  id : String
  onSurface : Bool
deriving DecidableEq, Repr

/-- The tool/shape kind tag of `SketchShape3D`. -/
inductive ShapeType where
  | line
  | rectangle
  | circle
  | polygon
  | spline
deriving DecidableEq, Repr

/-- A sketch shape (`SketchShape3D`): typed ordered point list with a
`closed` flag.  The extrusion engine of `src/three/extrusion` consumes the
same data with the point coordinates read positionally. -/
structure SketchShape3D where
  type : ShapeType
  points : List SketchPoint3D
  id : String
  closed : Bool
deriving DecidableEq, Repr

/-- Extrusion configuration (`ExtrusionSettings`). -/
structure ExtrusionSettings where
  depth : ℚ
  bevelEnabled : Bool
  bevelThickness : ℚ
  bevelSize : ℚ
  bevelSegments : ℕ
deriving DecidableEq, Repr

/-- Indexed mesh buffer, modelling the parts of `THREE.BufferGeometry` the
kernel produces and inspects: vertex positions, a flat triangle index list,
and the optionally (re)computed vertex normals and axis-aligned bounding
box. -/
structure Mesh where
  positions : List Vec3
  indices : List ℕ
  normals : Option (List Vec3)
  bbox : Option (Vec3 × Vec3)
deriving DecidableEq, Repr

/-- Modelled from the spec: `new THREE.BoxGeometry(1, 1, 1)` (three.js
library code, not under `src/`), the "fixed unit-cube solid" of the fallback
policy: the eight corners of an origin-centered unit cube with twelve
triangles.  The settled claims depend only on this being one fixed,
non-empty solid. -/
def unitBoxGeometry : Mesh :=
  { positions :=
      [⟨-1/2, -1/2, -1/2⟩, ⟨1/2, -1/2, -1/2⟩, ⟨1/2, 1/2, -1/2⟩, ⟨-1/2, 1/2, -1/2⟩,
       ⟨-1/2, -1/2, 1/2⟩, ⟨1/2, -1/2, 1/2⟩, ⟨1/2, 1/2, 1/2⟩, ⟨-1/2, 1/2, 1/2⟩]
    indices :=
      [0, 2, 1, 0, 3, 2, 4, 5, 6, 4, 6, 7,
       0, 1, 5, 0, 5, 4, 1, 2, 6, 1, 6, 5,
       2, 3, 7, 2, 7, 6, 3, 0, 4, 3, 4, 7]
    normals := none
    bbox := none }

/-- Group a flat index list into consecutive triangles. -/
def triplesOf : List ℕ → List (ℕ × ℕ × ℕ)
  | a :: b :: c :: rest => (a, b, c) :: triplesOf rest
  | _ => []

/-- Face normal (unnormalized cross product) of one indexed triangle. -/
def faceNormalOf (ps : List Vec3) (t : ℕ × ℕ × ℕ) : Vec3 :=
  Vec3.cross (ps.getD t.2.1 0 - ps.getD t.1 0) (ps.getD t.2.2 0 - ps.getD t.1 0)

/-- Modelled from the spec: `BufferGeometry.computeVertexNormals` (three.js
library code, not under `src/`) — for each vertex, accumulate the face
normals of the triangles containing it (the final per-vertex normalization
only rescales and is not modelled over ℚ). -/
def vertexNormalsOf (ps : List Vec3) (idx : List ℕ) : List Vec3 :=
  (List.range ps.length).map (fun i =>
    ((triplesOf idx).filter (fun t => t.1 = i ∨ t.2.1 = i ∨ t.2.2 = i)).foldl
      (fun acc t => acc + faceNormalOf ps t) 0)

/-- Componentwise minimum of two vectors. -/
def Vec3.minV (a b : Vec3) : Vec3 :=
  ⟨min a.x b.x, min a.y b.y, min a.z b.z⟩

/-- Componentwise maximum of two vectors. -/
def Vec3.maxV (a b : Vec3) : Vec3 :=
  ⟨max a.x b.x, max a.y b.y, max a.z b.z⟩

/-- Modelled from the spec: `BufferGeometry.computeBoundingBox` (three.js
library code) — the componentwise min/max corners of the position list. -/
def bboxOf : List Vec3 → Vec3 × Vec3
  | [] => (0, 0)
  | p :: rest => rest.foldl (fun acc q => (acc.1.minV q, acc.2.maxV q)) (p, p)

/-- Record recomputed vertex normals on a mesh
(`finalGeometry.computeVertexNormals()`). -/
def computeVertexNormalsM (m : Mesh) : Mesh :=
  { m with normals := some (vertexNormalsOf m.positions m.indices) }

/-- Record a recomputed axis-aligned bounding box on a mesh
(`finalGeometry.computeBoundingBox()`). -/
def computeBoundingBoxM (m : Mesh) : Mesh :=
  { m with bbox := some (bboxOf m.positions) }

/-- Index concatenation with running vertex offset, the index-adjustment
part of merging. -/
def offsetIndicesFrom : ℕ → List Mesh → List ℕ
  | _, [] => []
  | off, g :: rest => g.indices.map (· + off) ++ offsetIndicesFrom (off + g.positions.length) rest

/-- Modelled from the spec: `mergeGeometries(geometries, false)` (three.js
`BufferGeometryUtils`, not under `src/`) — vertex/index concatenation with
index offset adjustment, no welding, derived attributes not yet
recomputed. -/
def mergeGeometries (gs : List Mesh) : Mesh :=
  { positions := (gs.map Mesh.positions).flatten
    indices := offsetIndicesFrom 0 gs
    normals := none
    bbox := none }

/-- The triple scan inside `ExtrusionEngine.computeNormal`: over the tail
`p1, p2, ...` of the point list, take consecutive pairs `(pi, pi+1)` and
return the cross product of `(pi - p0)` and `(pi+1 - p0)` for the first
pair whose cross product is nonzero.  In the source the candidate is
normalized first and then tested with `lengthSq() > 1e-6`; since a
normalized nonzero vector has squared length 1 and `normalize` leaves the
zero vector zero, in exact arithmetic the test accepts exactly the nonzero
cross products. -/
def scanTriplesAux (a b : Vec3) : List Vec3 → Option Vec3
  | [] => none
  | c :: rest =>
    let n := Vec3.cross (b - a) (c - a)
    if n ≠ 0 then some n else scanTriplesAux a c rest

/-- The scan entry point: start from the first two tail points. -/
def scanTriples (a : Vec3) : List Vec3 → Option Vec3
  | b :: rest => scanTriplesAux a b rest
  | [] => none

/-- `ExtrusionEngine.computeNormal` (`src/three/extrusion`), up to the final
normalization, which only rescales the returned direction.  The source's
`points.length < 3` early return is subsumed: a scan over a tail shorter
than two elements yields `none`. -/
def computeNormal (pts : List Vec3) : Option Vec3 :=
  match pts with
  | a :: rest => scanTriples a rest
  | [] => none

/-- The triple scan as the specification words it: return the first cross
product whose squared length exceeds the epsilon `1e-6` (compared before
any normalization). -/
def scanTriplesSpecAux (a b : Vec3) : List Vec3 → Option Vec3
  | [] => none
  | c :: rest =>
    let n := Vec3.cross (b - a) (c - a)
    if n.lengthSq > 1 / 1000000 then some n else scanTriplesSpecAux a c rest

/-- Entry point of the specification-worded scan. -/
def scanTriplesSpec (a : Vec3) : List Vec3 → Option Vec3
  | b :: rest => scanTriplesSpecAux a b rest
  | [] => none

/-- Normal estimation as the specification words it, for comparison with
`computeNormal`. -/
def computeNormalSpec (pts : List Vec3) : Option Vec3 :=
  match pts with
  | a :: rest => scanTriplesSpec a rest
  | [] => none

/-- The world positions of a shape's points, as the extrusion engine reads
them. -/
def shapePts (s : SketchShape3D) : List Vec3 :=
  s.points.map SketchPoint3D.position

/-- The per-shape validity test of `extrudeSketch`:
`if (!shape.closed || shape.points.length < 3) continue;`. -/
def validShape (s : SketchShape3D) : Bool :=
  s.closed && decide (3 ≤ s.points.length)

/-- Modelled from the spec: the per-shape solid construction of
`extrudeSketch` — local basis, flattening to 2D, `THREE.ExtrudeGeometry`
(three.js library code, not under `src/`) and the rigid transform back to
world space.  The model extrudes the polygon as a prism from the profile
ring to its translate by `depth` along the (unnormalized) profile normal,
with quad side walls and fan caps; the bevel sub-mesh detail is not
modelled and no settled claim inspects it.  The settled claims depend only
on which shapes produce a solid and on how per-shape solids are merged. -/
def extrudeShapeGeom (settings : ExtrusionSettings) (pts : List Vec3) (n : Vec3) : Mesh :=
  let k := pts.length
  let top := pts.map (fun p => p + settings.depth • n)
  let sides := ((List.range k).map (fun i =>
    [i, (i + 1) % k, k + (i + 1) % k, i, k + (i + 1) % k, k + i])).flatten
  let caps := ((List.range (k - 2)).map (fun i =>
    [0, i + 1, i + 2, k, k + i + 2, k + i + 1])).flatten
  { positions := pts ++ top
    indices := sides ++ caps
    normals := none
    bbox := none }

/-- One iteration of the shape loop of `extrudeSketch`: a shape yields a
solid exactly when it passes the validity test and its normal estimation
succeeds. -/
def perShapeGeom (settings : ExtrusionSettings) (s : SketchShape3D) : Option Mesh :=
  if validShape s then
    (computeNormal (shapePts s)).map (extrudeShapeGeom settings (shapePts s))
  else
    none

/-- The per-shape solids collected by the loop of `extrudeSketch`, in input
order. -/
def geomsOf (settings : ExtrusionSettings) (shapes : List SketchShape3D) : List Mesh :=
  shapes.filterMap (perShapeGeom settings)

/-- `ExtrusionEngine.extrudeSketch` (`src/three/extrusion`): unit-cube
fallback for an empty input list; otherwise collect the per-shape solids,
fall back to the unit cube if every shape was skipped, and else merge and
recompute vertex normals and the bounding box.  The function is total: it
never returns a null or empty result. -/
def extrudeSketch (shapes : List SketchShape3D) (settings : ExtrusionSettings) : Mesh :=
  if shapes = [] then
    unitBoxGeometry
  else
    let geoms := geomsOf settings shapes
    if geoms = [] then
      unitBoxGeometry
    else
      computeBoundingBoxM (computeVertexNormalsM (mergeGeometries geoms))

/-- `SketchEngine3D.snapPointToGrid`, in workplane-local coordinates: the
source converts the picked world point to workplane-local coordinates,
rounds the local `x` and `y` to the nearest multiple of `gridSize`
(`Math.round(v / gridSize) * gridSize`; `Math.round` ties go toward `+∞`,
as Mathlib's `round`), zeroes the local `z`, and converts back to world
space.  The claims about snapping are stated in local coordinates, so the
rigid `worldToLocal`/`localToWorld` conversions bracketing this core are
not part of the model. -/
def snapPointToGridLocal (gridSize : ℚ) (p : Vec3) : Vec3 :=
  ⟨round (p.x / gridSize) * gridSize, round (p.y / gridSize) * gridSize, 0⟩

/-- The fields of `SketchEngine3D` the sketch capture state machine reads
and writes: the finished-shape list, the active tool (a plain string in the
source), the in-progress shape and the drawing flag.  Scene-graph side
effects (previews, sketch lines) live outside the kernel state. -/
structure SketchState where
  shapes : List SketchShape3D
  currentTool : String
  currentShape : Option SketchShape3D
  isDrawing : Bool
deriving DecidableEq, Repr

/-- `SketchEngine3D.finishPolygon`: no-op without an in-progress shape or
with fewer than 3 accumulated points; otherwise set `closed`, append the
shape to the finished list and drop the in-progress shape. -/
def finishPolygon (s : SketchState) : SketchState :=
  match s.currentShape with
  | none => s
  | some sh =>
    if sh.points.length < 3 then s
    else
      { s with shapes := s.shapes ++ [{ sh with closed := true }], currentShape := none }

/-- `SketchEngine3D.finishCurrentSketch`: if an in-progress shape exists and
the *current* tool is `polygon` with ≥ 3 points, close and commit it via
`finishPolygon`; if the current tool is `spline` with ≥ 2 points, commit it
as-is; otherwise the in-progress shape is left in place.  Drawing always
stops. -/
def finishCurrentSketch (s : SketchState) : SketchState :=
  let s1 :=
    match s.currentShape with
    | none => s
    | some sh =>
      if s.currentTool = "polygon" ∧ 3 ≤ sh.points.length then
        finishPolygon s
      else if s.currentTool = "spline" ∧ 2 ≤ sh.points.length then
        { s with shapes := s.shapes ++ [sh], currentShape := none }
      else
        s
  { s1 with isDrawing := false }

/-- `SketchEngine3D.setTool`: store the new tool first, then run
`finishCurrentSketch` — which therefore dispatches on the *new* tool. -/
def setTool (tool : String) (s : SketchState) : SketchState :=
  finishCurrentSketch { s with currentTool := tool }

/-- `SketchEngine3D.addPolygonPoint`: create an open, empty polygon shape
if none is in progress, then append the picked point. -/
def addPolygonPoint (p : SketchPoint3D) (s : SketchState) : SketchState :=
  let sh : SketchShape3D :=
    match s.currentShape with
    | none => { type := ShapeType.polygon, points := [], id := "polygon", closed := false }
    | some sh => sh
  { s with currentShape := some { sh with points := sh.points ++ [p] } }

/-- `SketchEngine3D.handleDoubleClick`: finish the polygon when the polygon
tool is active and a shape is in progress; report whether the event was
consumed. -/
def handleDoubleClick (s : SketchState) : SketchState × Bool :=
  if s.currentTool = "polygon" ∧ s.currentShape.isSome then
    (finishPolygon s, true)
  else
    (s, false)

/-- A heap of shape arrays, modelling JavaScript array references: each
array handle is an index into the heap.  This is the minimal memory model
needed to state aliasing/freshness facts about `getShapes`. -/
structure Store where
  heap : List (List SketchShape3D)
deriving DecidableEq, Repr

/-- Allocate a fresh array holding `v`; returns the new store and the fresh
handle. -/
def Store.alloc (st : Store) (v : List SketchShape3D) : Store × ℕ :=
  ({ heap := st.heap ++ [v] }, st.heap.length)

/-- Read the array behind a handle. -/
def Store.read (st : Store) (r : ℕ) : List SketchShape3D :=
  st.heap.getD r []

/-- Overwrite the array behind a handle (models any in-place mutation of
that array: push, pop, splice, ...). -/
def Store.write (st : Store) (r : ℕ) (v : List SketchShape3D) : Store :=
  { heap := st.heap.set r v }

/-- `SketchEngine3D.getShapes`: `return [...this.shapes];` — allocate a
fresh array whose contents copy the engine's internal finished-shape array
(handle `ref`) and return the fresh handle. -/
def getShapes (st : Store) (ref : ℕ) : Store × ℕ :=
  st.alloc (st.read ref)

/-- Modelled from the spec: the `OffsetEngine.offsetBody` implementation is
not among the available sources (only its call sites are); §4.5 specifies
"displace every vertex along its own (averaged) vertex normal by
`distance`".  The averaged vertex normals are the accumulated face normals
of `vertexNormalsOf` (averaging/normalizing only rescales each direction
and is not modelled over ℚ); derived attributes of the result are left
unset. -/
def offsetBody (m : Mesh) (distance : ℚ) : Mesh :=
  { positions :=
      List.zipWith (fun p n => p + distance • n) m.positions
        (vertexNormalsOf m.positions m.indices)
    indices := m.indices
    normals := none
    bbox := none }

/-- Modelled from the spec: the `OffsetEngine.offsetFace` implementation is
not among the available sources; §4.5 specifies "displace the vertices
belonging to the selected face along that face's normal by `distance`".
The side-wall regeneration detail is not modelled; no settled claim
inspects it. -/
def offsetFace (m : Mesh) (faceIndex : ℕ) (distance : ℚ) : Mesh :=
  let t := (triplesOf m.indices).getD faceIndex (0, 0, 0)
  let n := faceNormalOf m.positions t
  { positions :=
      (List.range m.positions.length).map (fun i =>
        let p := m.positions.getD i 0
        if i = t.1 ∨ i = t.2.1 ∨ i = t.2.2 then p + distance • n else p)
    indices := m.indices
    normals := none
    bbox := none }

/-- The `simple` extrusion preset of `createExtrusionPresets` (depth 1, no
bevel), used as a concrete settings value. -/
def simpleSettings : ExtrusionSettings :=
  { depth := 1, bevelEnabled := false, bevelThickness := 0, bevelSize := 0, bevelSegments := 1 }

/-- Concrete picked point constructor for examples. -/
def pt (x y z : ℚ) (i : String) : SketchPoint3D :=
  ⟨⟨x, y, z⟩, i, true⟩

/-- A single line shape: two points, not closed (end-to-end scenario 3). -/
def lineShapeEx : SketchShape3D :=
  { type := ShapeType.line, points := [pt 0 0 0 "a", pt 1 0 0 "b"], id := "line1", closed := false }

/-- Three collinear points marked as a closed polygon (end-to-end
scenario 4): passes the validity check but fails normal estimation. -/
def collinearShapeEx : SketchShape3D :=
  { type := ShapeType.polygon, points := [pt 0 0 0 "c1", pt 1 0 0 "c2", pt 2 0 0 "c3"],
    id := "col1", closed := true }

/-- A valid closed triangle in the z = 0 plane. -/
def triShapeEx : SketchShape3D :=
  { type := ShapeType.polygon, points := [pt 0 0 0 "t1", pt 1 0 0 "t2", pt 0 1 0 "t3"],
    id := "tri1", closed := true }

/-- A second valid closed triangle, in the z = 2 plane. -/
def triShapeEx2 : SketchShape3D :=
  { type := ShapeType.polygon, points := [pt 0 0 2 "u1", pt 1 0 2 "u2", pt 0 1 2 "u3"],
    id := "tri2", closed := true }

/-- A nearly collinear point triple whose raw cross product has squared
length exactly `1e-6` (not above the epsilon), yet is nonzero. -/
def nearCollinearPts : List Vec3 :=
  [⟨0, 0, 0⟩, ⟨1, 0, 0⟩, ⟨2, 1/1000, 0⟩]

/-- An in-progress (uncommitted) polygon shape with three accumulated
points. -/
def polyInProgressEx : SketchShape3D :=
  { type := ShapeType.polygon, points := [pt 0 0 0 "p1", pt 1 0 0 "p2", pt 0 1 0 "p3"],
    id := "poly1", closed := false }

/-- A sketch state amid drawing that polygon, with an empty finished list. -/
def stateEx : SketchState :=
  { shapes := [], currentTool := "polygon", currentShape := some polyInProgressEx,
    isDrawing := false }

/-- A concrete store whose handle 0 is the engine's internal shape array. -/
def storeEx : Store :=
  ⟨[[lineShapeEx, triShapeEx]]⟩

/-- A sketch state with no in-progress shape, for witnesses. -/
def stateEx0 : SketchState :=
  { shapes := [], currentTool := "polygon", currentShape := none, isDrawing := false }

/-- The cross product of `(pi - p0)` and `(pi+1 - p0)` for the point triple
`(p0, pi, pi+1)` of a point list, used to characterize the normal-estimation
scan. -/
def crossAt (pts : List Vec3) (i : ℕ) : Vec3 :=
  Vec3.cross (pts.getD i 0 - pts.getD 0 0) (pts.getD (i + 1) 0 - pts.getD 0 0)

theorem Vec3.add_def (a b : Vec3) : a + b = ⟨a.x + b.x, a.y + b.y, a.z + b.z⟩ := rfl

theorem Vec3.smul_def (c : ℚ) (v : Vec3) : c • v = ⟨c * v.x, c * v.y, c * v.z⟩ := rfl

theorem Vec3.sub_def (a b : Vec3) : a - b = ⟨a.x - b.x, a.y - b.y, a.z - b.z⟩ := rfl

theorem Vec3.zero_def : (0 : Vec3) = ⟨0, 0, 0⟩ := rfl

theorem Vec3.mk_eq_zero (x y z : ℚ) :
    (Vec3.mk x y z = 0) ↔ (x = 0 ∧ y = 0 ∧ z = 0) := by
  rw [Vec3.zero_def, Vec3.mk.injEq]

theorem Vec3.add_zero_smul (p n : Vec3) : p + (0 : ℚ) • n = p := by
  cases p
  cases n
  simp [Vec3.add_def, Vec3.smul_def]

theorem vertexNormalsOf_length (ps : List Vec3) (idx : List ℕ) :
    (vertexNormalsOf ps idx).length = ps.length := by
  simp [vertexNormalsOf]

theorem zipWith_add_zero_smul :
    ∀ ps ns : List Vec3, ps.length ≤ ns.length →
      List.zipWith (fun p n => p + (0 : ℚ) • n) ps ns = ps
  | [], _, _ => by simp
  | p :: ps, n :: ns, h => by
    show (p + (0 : ℚ) • n) :: List.zipWith _ ps ns = p :: ps
    rw [Vec3.add_zero_smul, zipWith_add_zero_smul ps ns (by simpa using h)]
  | p :: ps, [], h => by simp at h

theorem map_getD_range (ps : List Vec3) :
    (List.range ps.length).map (fun i => ps.getD i 0) = ps := by
  apply List.ext_getElem (by simp)
  intro i h1 h2
  simp [List.getD_eq_getElem?_getD, List.getElem?_eq_getElem h2]

/-- C9: `offsetBody(mesh, 0)` is congruent to the input — every vertex
position (and the index list) is exactly unchanged, hence unchanged within
any epsilon — and the same holds for `offsetFace(mesh, i, 0)`.  Purity of
both operations (same input, same output, input buffer not mutated) is
definitional in this functional model: both are total functions of their
arguments building a new `Mesh` value. -/
theorem offsetBody_zero_congruent (m : Mesh) (i : ℕ) :
    (offsetBody m 0).positions = m.positions ∧
    (offsetBody m 0).indices = m.indices ∧
    (offsetFace m i 0).positions = m.positions ∧
    (offsetFace m i 0).indices = m.indices := by
  refine ⟨?_, rfl, ?_, rfl⟩
  · show List.zipWith _ m.positions (vertexNormalsOf m.positions m.indices) = m.positions
    exact zipWith_add_zero_smul _ _ (by rw [vertexNormalsOf_length])
  · show (offsetFace m i 0).positions = m.positions
    simp only [offsetFace]
    have h2 : ∀ j ∈ List.range m.positions.length,
        (if j = ((triplesOf m.indices).getD i (0, 0, 0)).1 ∨
            j = ((triplesOf m.indices).getD i (0, 0, 0)).2.1 ∨
            j = ((triplesOf m.indices).getD i (0, 0, 0)).2.2 then
          m.positions.getD j 0 +
            (0 : ℚ) • faceNormalOf m.positions ((triplesOf m.indices).getD i (0, 0, 0))
        else m.positions.getD j 0) = m.positions.getD j 0 := by
      intro j _
      split
      · exact Vec3.add_zero_smul _ _
      · rfl
    rw [List.map_congr_left h2]
    exact map_getD_range m.positions

/-- C6: with snapping enabled and grid size `g > 0`, each snapped
workplane-local coordinate is an integer multiple of `g`, and the local-2D
squared distance between the raw pick and its snapped result is at most
`g^2 / 2` — equivalently, the local-2D distance is at most `g / √2`, the
diagonal worst case (stated in squared form to stay in ℚ). -/
theorem snapPointToGrid_multiple_and_close (g : ℚ) (p : Vec3) (h : 0 < g) :
    (∃ kx : ℤ, (snapPointToGridLocal g p).x = kx * g) ∧
    (∃ ky : ℤ, (snapPointToGridLocal g p).y = ky * g) ∧
    (p.x - (snapPointToGridLocal g p).x) ^ 2 + (p.y - (snapPointToGridLocal g p).y) ^ 2 ≤
      g ^ 2 / 2 := by
  have hg : g ≠ 0 := ne_of_gt h
  refine ⟨⟨round (p.x / g), rfl⟩, ⟨round (p.y / g), rfl⟩, ?_⟩
  have hx : p.x - (snapPointToGridLocal g p).x = (p.x / g - round (p.x / g)) * g := by
    show p.x - round (p.x / g) * g = _
    field_simp
    ring
  have hy : p.y - (snapPointToGridLocal g p).y = (p.y / g - round (p.y / g)) * g := by
    show p.y - round (p.y / g) * g = _
    field_simp
    ring
  have bx : |p.x / g - round (p.x / g)| ≤ 1 / 2 := abs_sub_round _
  have byy : |p.y / g - round (p.y / g)| ≤ 1 / 2 := abs_sub_round _
  have bx2 : (p.x / g - round (p.x / g)) ^ 2 ≤ (1 / 2) ^ 2 := by
    rw [← sq_abs]
    exact pow_le_pow_left₀ (abs_nonneg _) bx 2
  have by2 : (p.y / g - round (p.y / g)) ^ 2 ≤ (1 / 2) ^ 2 := by
    rw [← sq_abs]
    exact pow_le_pow_left₀ (abs_nonneg _) byy 2
  rw [hx, hy]
  have hgg : (0 : ℚ) ≤ g ^ 2 := sq_nonneg g
  nlinarith [bx2, by2, hgg]

/-- Witness for C6 at grid size `1/2` and raw local pick `(3/10, -7/5)`. -/
theorem snapPointToGrid_multiple_and_close_witness :
    (0 : ℚ) < 1 / 2 ∧
    ((∃ kx : ℤ, (snapPointToGridLocal (1 / 2) ⟨3/10, -7/5, 2⟩).x = kx * (1 / 2)) ∧
     (∃ ky : ℤ, (snapPointToGridLocal (1 / 2) ⟨3/10, -7/5, 2⟩).y = ky * (1 / 2)) ∧
     ((3 : ℚ)/10 - (snapPointToGridLocal (1 / 2) ⟨3/10, -7/5, 2⟩).x) ^ 2 +
       ((-7 : ℚ)/5 - (snapPointToGridLocal (1 / 2) ⟨3/10, -7/5, 2⟩).y) ^ 2 ≤
       (1 / 2 : ℚ) ^ 2 / 2) :=
  ⟨by norm_num, snapPointToGrid_multiple_and_close (1 / 2) ⟨3/10, -7/5, 2⟩ (by norm_num)⟩

theorem Store.read_alloc_new (st : Store) (v : List SketchShape3D) :
    (st.alloc v).1.read (st.alloc v).2 = v := by
  show (st.heap ++ [v]).getD st.heap.length [] = v
  simp [List.getD_eq_getElem?_getD]

theorem Store.read_alloc_old (st : Store) (v : List SketchShape3D) (r : ℕ)
    (h : r < st.heap.length) : (st.alloc v).1.read r = st.read r := by
  show (st.heap ++ [v]).getD r [] = st.heap.getD r []
  simp [List.getD_eq_getElem?_getD, List.getElem?_append_left h]

theorem Store.read_write_ne (st : Store) (r r' : ℕ) (v : List SketchShape3D)
    (h : r' ≠ r) : (st.write r' v).read r = st.read r := by
  show (st.heap.set r' v).getD r [] = st.heap.getD r []
  simp [List.getD_eq_getElem?_getD, List.getElem?_set_ne h]

/-- C10: `getShapes` returns a fresh array on every call.  The returned
handle is distinct from the engine's internal array handle and holds a copy
of its contents; overwriting the returned array (modelling any caller-side
mutation) leaves the internal finished-shape list unchanged, and a
subsequent `getShapes` call still returns the same shapes as before the
mutation. -/
theorem getShapes_fresh_array (st : Store) (ref : ℕ) (v : List SketchShape3D)
    (h : ref < st.heap.length) :
    (getShapes st ref).2 ≠ ref ∧
    (getShapes st ref).1.read (getShapes st ref).2 = st.read ref ∧
    ((getShapes st ref).1.write (getShapes st ref).2 v).read ref = st.read ref ∧
    (getShapes ((getShapes st ref).1.write (getShapes st ref).2 v) ref).1.read
        (getShapes ((getShapes st ref).1.write (getShapes st ref).2 v) ref).2 =
      st.read ref := by
  have hne : (getShapes st ref).2 ≠ ref := by
    show st.heap.length ≠ ref
    omega
  have hcopy : (getShapes st ref).1.read (getShapes st ref).2 = st.read ref :=
    Store.read_alloc_new st (st.read ref)
  have hframe : ((getShapes st ref).1.write (getShapes st ref).2 v).read ref = st.read ref := by
    rw [Store.read_write_ne _ _ _ _ hne]
    exact Store.read_alloc_old st (st.read ref) ref h
  refine ⟨hne, hcopy, hframe, ?_⟩
  show (Store.alloc _ (Store.read _ ref)).1.read (Store.alloc _ (Store.read _ ref)).2 = _
  rw [Store.read_alloc_new, hframe]

/-- Witness for C10 on a concrete store: the engine's internal array is
handle 0; emptying the array returned by `getShapes` does not change what
the engine reads at handle 0. -/
theorem getShapes_fresh_array_witness :
    0 < storeEx.heap.length ∧
    (getShapes storeEx 0).2 ≠ 0 ∧
    ((getShapes storeEx 0).1.write (getShapes storeEx 0).2 []).read 0 = storeEx.read 0 :=
  ⟨by decide,
   (getShapes_fresh_array storeEx 0 [] (by decide)).1,
   (getShapes_fresh_array storeEx 0 [] (by decide)).2.2.1⟩

/-- Counterexample to C7: in a state drawing a polygon with three
accumulated points, switching the active tool to `spline` does not discard
the in-progress shape — `setTool` runs `finishCurrentSketch` against the
*new* tool, which commits the uncommitted polygon to the finished-shape
list.  Switching to `line` instead leaves the in-progress shape in place
rather than discarding it. -/
theorem setTool_commits_in_progress_shape :
    (setTool "spline" stateEx).shapes ≠ stateEx.shapes ∧
    (setTool "line" stateEx).currentShape = some polyInProgressEx := by
  decide

/-- C7 (amended): switching the active tool stores the new tool and then
finishes the current sketch against the new tool: with an in-progress shape
`sh`, if the new tool is `polygon` and `sh` has ≥ 3 points, `sh` is closed
and committed to the finished list; if the new tool is `spline` and `sh`
has ≥ 2 points, `sh` is committed as-is; otherwise both the finished list
and the in-progress shape are unchanged — the in-progress shape is never
simply discarded.  In all cases drawing stops and the tool is updated. -/
theorem setTool_cases (t : String) (s : SketchState) (sh : SketchShape3D)
    (h : s.currentShape = some sh) :
    ((t = "polygon" ∧ 3 ≤ sh.points.length) →
      (setTool t s).shapes = s.shapes ++ [{ sh with closed := true }] ∧
      (setTool t s).currentShape = none) ∧
    ((t = "spline" ∧ 2 ≤ sh.points.length) →
      (setTool t s).shapes = s.shapes ++ [sh] ∧
      (setTool t s).currentShape = none) ∧
    ((¬(t = "polygon" ∧ 3 ≤ sh.points.length) ∧ ¬(t = "spline" ∧ 2 ≤ sh.points.length)) →
      (setTool t s).shapes = s.shapes ∧
      (setTool t s).currentShape = some sh) ∧
    (setTool t s).isDrawing = false ∧
    (setTool t s).currentTool = t := by
  refine ⟨?_, ?_, ?_, ?_, ?_⟩
  · rintro ⟨rfl, hlen⟩
    have hnot : ¬sh.points.length < 3 := by omega
    simp [setTool, finishCurrentSketch, finishPolygon, h, hlen, hnot]
  · rintro ⟨rfl, hlen⟩
    have hne : ¬(("spline" : String) = "polygon" ∧ 3 ≤ sh.points.length) := by
      rintro ⟨hc, -⟩
      exact absurd hc (by decide)
    simp [setTool, finishCurrentSketch, h, hne, hlen]
  · rintro ⟨h1, h2⟩
    have h1' : ¬(t = "polygon" ∧ 3 ≤ sh.points.length) := h1
    have h2' : ¬(t = "spline" ∧ 2 ≤ sh.points.length) := h2
    simp [setTool, finishCurrentSketch, h, h1', h2']
  · rfl
  · simp only [setTool, finishCurrentSketch, h, finishPolygon]
    split
    · split <;> rfl
    · split <;> rfl

/-- Witness for C7 (amended) at a concrete drawing state: switching to a
tool that triggers neither commit branch retains the in-progress polygon
and leaves the finished list unchanged. -/
theorem setTool_cases_witness :
    (setTool "line" stateEx).shapes = stateEx.shapes ∧
    (setTool "line" stateEx).currentShape = some polyInProgressEx ∧
    (setTool "line" stateEx).isDrawing = false ∧
    (setTool "line" stateEx).currentTool = "line" :=
  ⟨((setTool_cases "line" stateEx polyInProgressEx rfl).2.2.1 (by decide)).1,
   ((setTool_cases "line" stateEx polyInProgressEx rfl).2.2.1 (by decide)).2,
   (setTool_cases "line" stateEx polyInProgressEx rfl).2.2.2.1,
   (setTool_cases "line" stateEx polyInProgressEx rfl).2.2.2.2⟩

/-- C8: a polygon's `closed` flag becomes true only through the explicit
finish action and only with ≥ 3 accumulated points: `finishPolygon` (and a
double-click routed to it) on an in-progress shape with fewer than 3 points
changes nothing at all; with ≥ 3 points it commits the shape with
`closed := true`; and `addPolygonPoint` — the only other polygon mutation —
creates the shape with `closed := false` and never changes the flag or the
finished list. -/
theorem polygon_closed_only_on_finish (s s' : SketchState) (sh : SketchShape3D)
    (p : SketchPoint3D) (h : s.currentShape = some sh) (h' : s'.currentShape = none) :
    (sh.points.length < 3 → finishPolygon s = s ∧ (handleDoubleClick s).1 = s) ∧
    (3 ≤ sh.points.length →
      (finishPolygon s).shapes = s.shapes ++ [{ sh with closed := true }] ∧
      (finishPolygon s).currentShape = none) ∧
    (∀ sh2, (addPolygonPoint p s).currentShape = some sh2 → sh2.closed = sh.closed) ∧
    (∀ sh2, (addPolygonPoint p s').currentShape = some sh2 →
      sh2.closed = false ∧ sh2.type = ShapeType.polygon) ∧
    (addPolygonPoint p s).shapes = s.shapes := by
  refine ⟨?_, ?_, ?_, ?_, rfl⟩
  · intro hlt
    have hfp : finishPolygon s = s := by
      simp [finishPolygon, h, hlt]
    refine ⟨hfp, ?_⟩
    simp only [handleDoubleClick]
    split
    · simpa using hfp
    · rfl
  · intro hge
    have hnot : ¬sh.points.length < 3 := by omega
    simp [finishPolygon, h, hnot]
  · intro sh2 hsh2
    simp only [addPolygonPoint, h] at hsh2
    cases hsh2
    rfl
  · intro sh2 hsh2
    simp only [addPolygonPoint, h'] at hsh2
    cases hsh2
    exact ⟨rfl, rfl⟩

/-- Witness for C8 at concrete states: finishing the 3-point polygon
commits it closed; a fresh polygon point on an idle state starts an open
polygon and leaves the finished list unchanged. -/
theorem polygon_closed_only_on_finish_witness :
    (finishPolygon stateEx).shapes = stateEx.shapes ++ [{ polyInProgressEx with closed := true }] ∧
    (finishPolygon stateEx).currentShape = none ∧
    (addPolygonPoint (pt 0 0 0 "w") stateEx).shapes = stateEx.shapes :=
  ⟨((polygon_closed_only_on_finish stateEx stateEx0 polyInProgressEx (pt 0 0 0 "w")
      rfl rfl).2.1 (by decide)).1,
   ((polygon_closed_only_on_finish stateEx stateEx0 polyInProgressEx (pt 0 0 0 "w")
      rfl rfl).2.1 (by decide)).2,
   (polygon_closed_only_on_finish stateEx stateEx0 polyInProgressEx (pt 0 0 0 "w")
      rfl rfl).2.2.2.2⟩

theorem perShapeGeom_eq_none {settings : ExtrusionSettings} {s : SketchShape3D}
    (h : validShape s = false ∨ computeNormal (shapePts s) = none) :
    perShapeGeom settings s = none := by
  rcases h with h | h
  · simp [perShapeGeom, h]
  · simp [perShapeGeom, h]

theorem perShapeGeom_eq_some {settings : ExtrusionSettings} {s : SketchShape3D} {n : Vec3}
    (h1 : validShape s = true) (h2 : computeNormal (shapePts s) = some n) :
    perShapeGeom settings s = some (extrudeShapeGeom settings (shapePts s) n) := by
  simp [perShapeGeom, h1, h2]

theorem geomsOf_skip {settings : ExtrusionSettings} {s : SketchShape3D}
    (h : perShapeGeom settings s = none) (l r : List SketchShape3D) :
    geomsOf settings (l ++ s :: r) = geomsOf settings (l ++ r) := by
  simp [geomsOf, List.filterMap_append, List.filterMap_cons_none h]

/-- C1: the fallback policy of `extrudeSketch` — if the shape list is
empty, or every shape fails the validity check (closed with ≥ 3 points) or
fails normal estimation, the result is exactly the fixed unit-cube solid,
and in particular a non-empty mesh (the function is total, so it can never
return a null mesh). -/
theorem extrudeSketch_fallback_unit_cube (shapes : List SketchShape3D)
    (settings : ExtrusionSettings)
    (h : shapes = [] ∨
      ∀ s ∈ shapes, validShape s = false ∨ computeNormal (shapePts s) = none) :
    extrudeSketch shapes settings = unitBoxGeometry ∧
    (extrudeSketch shapes settings).positions ≠ [] := by
  have hbox : unitBoxGeometry.positions ≠ [] := by simp [unitBoxGeometry]
  have heq : extrudeSketch shapes settings = unitBoxGeometry := by
    rcases h with rfl | hall
    · simp [extrudeSketch]
    · have hnil : geomsOf settings shapes = [] :=
        List.filterMap_eq_nil_iff.mpr (fun s hs => perShapeGeom_eq_none (hall s hs))
      unfold extrudeSketch
      split
      · rfl
      · simp [hnil]
  exact ⟨heq, heq ▸ hbox⟩

/-- Witness for C1: a single open line shape (end-to-end scenario 3) is
skipped, so extrusion returns the unit-cube fallback, a non-empty mesh. -/
theorem extrudeSketch_fallback_unit_cube_witness :
    extrudeSketch [lineShapeEx] simpleSettings = unitBoxGeometry ∧
    (extrudeSketch [lineShapeEx] simpleSettings).positions ≠ [] :=
  extrudeSketch_fallback_unit_cube [lineShapeEx] simpleSettings (Or.inr (by decide))

/-- Counterexample to C2: a closed triple of collinear points is *valid for
extrusion* in the claim's sense (closed, 3 points) yet contributes no
geometry — its normal estimation fails, the per-shape solid list stays
empty and the result is the fallback cube.  Hence "contributes iff valid"
fails in the "if" direction. -/
theorem valid_shape_need_not_contribute :
    validShape collinearShapeEx = true ∧
    geomsOf simpleSettings [collinearShapeEx] = [] ∧
    extrudeSketch [collinearShapeEx] simpleSettings = unitBoxGeometry := by
  refine ⟨by decide, ?_, ?_⟩
  · norm_num [geomsOf, perShapeGeom, validShape, computeNormal, scanTriples, scanTriplesAux, Vec3.cross, Vec3.sub_def, Vec3.mk_eq_zero, Vec3.mk.injEq, shapePts, pt, collinearShapeEx]
  · norm_num [extrudeSketch, geomsOf, perShapeGeom, validShape, computeNormal, scanTriples, scanTriplesAux, Vec3.cross, Vec3.sub_def, Vec3.mk_eq_zero, Vec3.mk.injEq, shapePts, pt, collinearShapeEx]

/-- C2 (amended): a shape contributes a per-shape solid iff it passes the
validity check (closed with ≥ 3 points) *and* its normal estimation
succeeds: a shape failing either test is dropped from the collected solid
list wherever it occurs, a shape passing both is extruded in place, and in
particular any open shape (such as a 2-point line, `closed = false`) is
always skipped. -/
theorem contributes_iff_valid_and_normal (settings : ExtrusionSettings) :
    (∀ s, (validShape s = false ∨ computeNormal (shapePts s) = none) →
      ∀ l r, geomsOf settings (l ++ s :: r) = geomsOf settings (l ++ r)) ∧
    (∀ s n r, validShape s = true → computeNormal (shapePts s) = some n →
      geomsOf settings (s :: r) =
        extrudeShapeGeom settings (shapePts s) n :: geomsOf settings r) ∧
    (∀ s, s.closed = false →
      ∀ l r, geomsOf settings (l ++ s :: r) = geomsOf settings (l ++ r)) := by
  refine ⟨?_, ?_, ?_⟩
  · intro s hs l r
    exact geomsOf_skip (perShapeGeom_eq_none hs) l r
  · intro s n r h1 h2
    simp [geomsOf, List.filterMap_cons_some (perShapeGeom_eq_some h1 h2)]
  · intro s hs l r
    refine geomsOf_skip (perShapeGeom_eq_none (Or.inl ?_)) l r
    simp [validShape, hs]

/-- Witness for C2 (amended): the collinear closed shape is dropped, the
valid triangle is extruded in place, and the open line shape is dropped. -/
theorem contributes_iff_valid_and_normal_witness :
    geomsOf simpleSettings ([] ++ collinearShapeEx :: [triShapeEx]) =
      geomsOf simpleSettings ([] ++ [triShapeEx]) ∧
    geomsOf simpleSettings (triShapeEx :: []) =
      extrudeShapeGeom simpleSettings (shapePts triShapeEx) ⟨0, 0, 1⟩ ::
        geomsOf simpleSettings [] ∧
    geomsOf simpleSettings ([] ++ lineShapeEx :: [triShapeEx]) =
      geomsOf simpleSettings ([] ++ [triShapeEx]) :=
  ⟨(contributes_iff_valid_and_normal simpleSettings).1 collinearShapeEx
      (Or.inr (by norm_num [computeNormal, scanTriples, scanTriplesAux, Vec3.cross, Vec3.sub_def, Vec3.mk_eq_zero, Vec3.mk.injEq, shapePts, pt, collinearShapeEx])) [] [triShapeEx],
   (contributes_iff_valid_and_normal simpleSettings).2.1 triShapeEx ⟨0, 0, 1⟩ []
      (by decide) (by norm_num [computeNormal, scanTriples, scanTriplesAux, Vec3.cross, Vec3.sub_def, Vec3.mk_eq_zero, Vec3.mk.injEq, shapePts, pt, triShapeEx]),
   (contributes_iff_valid_and_normal simpleSettings).2.2 lineShapeEx (by decide)
      [] [triShapeEx]⟩

/-- C4: a shape whose normal estimation fails (degenerate profile) is
skipped without aborting the batch: extruding any list containing it gives
exactly the same result as extruding the list without it — the remaining
valid shapes are still processed (and if none remain, both sides are the
fallback cube). -/
theorem extrudeSketch_skips_degenerate (s : SketchShape3D) (settings : ExtrusionSettings)
    (l r : List SketchShape3D) (h : computeNormal (shapePts s) = none) :
    extrudeSketch (l ++ s :: r) settings = extrudeSketch (l ++ r) settings := by
  have hskip : perShapeGeom settings s = none := perShapeGeom_eq_none (Or.inr h)
  have hg : geomsOf settings (l ++ s :: r) = geomsOf settings (l ++ r) :=
    geomsOf_skip hskip l r
  have hne : l ++ s :: r ≠ [] := by simp
  by_cases hlr : l ++ r = []
  · rcases List.append_eq_nil.mp hlr with ⟨rfl, rfl⟩
    simp only [List.nil_append] at hg ⊢
    unfold extrudeSketch
    rw [if_neg (by simp), if_pos rfl, if_pos (by simpa using hg)]
  · unfold extrudeSketch
    rw [if_neg hne, if_neg hlr, hg]

/-- Witness for C4 (end-to-end scenario 4): the collinear "polygon" is
skipped and the remaining valid triangle is still extruded. -/
theorem extrudeSketch_skips_degenerate_witness :
    computeNormal (shapePts collinearShapeEx) = none ∧
    extrudeSketch ([] ++ collinearShapeEx :: [triShapeEx]) simpleSettings =
      extrudeSketch ([] ++ [triShapeEx]) simpleSettings :=
  ⟨by norm_num [computeNormal, scanTriples, scanTriplesAux, Vec3.cross, Vec3.sub_def, Vec3.mk_eq_zero, Vec3.mk.injEq, shapePts, pt, collinearShapeEx],
   extrudeSketch_skips_degenerate collinearShapeEx simpleSettings [] [triShapeEx]
     (by norm_num [computeNormal, scanTriples, scanTriplesAux, Vec3.cross, Vec3.sub_def, Vec3.mk_eq_zero, Vec3.mk.injEq, shapePts, pt, collinearShapeEx])⟩

theorem geomsOf_length_of_all_some (settings : ExtrusionSettings) :
    ∀ shapes : List SketchShape3D,
      (∀ s ∈ shapes, (perShapeGeom settings s).isSome) →
      (geomsOf settings shapes).length = shapes.length
  | [], _ => rfl
  | a :: l, h => by
    rcases Option.isSome_iff_exists.mp (h a (List.mem_cons_self a l)) with ⟨m, hm⟩
    show (List.filterMap _ (a :: l)).length = l.length + 1
    rw [List.filterMap_cons_some hm]
    have ih := geomsOf_length_of_all_some settings l
      (fun s hs => h s (List.mem_cons_of_mem a hs))
    simp only [geomsOf] at ih
    simp [ih]

/-- C5: with two or more shapes that all pass the validity check and whose
normal estimation succeeds, every per-shape extruded solid is collected
(one solid per shape) and the result is exactly the merge of all of them by
vertex/index concatenation (positions joined in order, indices concatenated
with running vertex offsets), with vertex normals and an axis-aligned
bounding box recomputed on the merged mesh after the merge. -/
theorem extrudeSketch_merges_all_valid (shapes : List SketchShape3D)
    (settings : ExtrusionSettings) (h2 : 2 ≤ shapes.length)
    (hall : ∀ s ∈ shapes, validShape s = true ∧ (computeNormal (shapePts s)).isSome) :
    (geomsOf settings shapes).length = shapes.length ∧
    extrudeSketch shapes settings =
      computeBoundingBoxM (computeVertexNormalsM (mergeGeometries (geomsOf settings shapes))) ∧
    (extrudeSketch shapes settings).positions =
      ((geomsOf settings shapes).map Mesh.positions).flatten ∧
    (extrudeSketch shapes settings).indices =
      offsetIndicesFrom 0 (geomsOf settings shapes) ∧
    (extrudeSketch shapes settings).normals =
      some (vertexNormalsOf (((geomsOf settings shapes).map Mesh.positions).flatten)
        (offsetIndicesFrom 0 (geomsOf settings shapes))) ∧
    (extrudeSketch shapes settings).bbox =
      some (bboxOf (((geomsOf settings shapes).map Mesh.positions).flatten)) := by
  have hsome : ∀ s ∈ shapes, (perShapeGeom settings s).isSome := by
    intro s hs
    rcases hall s hs with ⟨h1, hs2⟩
    rcases Option.isSome_iff_exists.mp hs2 with ⟨n, hn⟩
    rw [perShapeGeom_eq_some h1 hn]
    rfl
  have hlen := geomsOf_length_of_all_some settings shapes hsome
  have hne : shapes ≠ [] := by
    intro hnil
    rw [hnil] at h2
    simp at h2
  have hgne : geomsOf settings shapes ≠ [] := by
    intro h0
    rw [h0] at hlen
    simp at hlen
    omega
  have hmain : extrudeSketch shapes settings =
      computeBoundingBoxM (computeVertexNormalsM (mergeGeometries (geomsOf settings shapes))) := by
    unfold extrudeSketch
    rw [if_neg hne, if_neg hgne]
  exact ⟨hlen, hmain, by rw [hmain]; rfl, by rw [hmain]; rfl, by rw [hmain]; rfl,
    by rw [hmain]; rfl⟩

/-- Witness for C5 on two concrete valid triangles: both are collected and
the result is the recomputed merge of the two solids. -/
theorem extrudeSketch_merges_all_valid_witness :
    2 ≤ ([triShapeEx, triShapeEx2] : List SketchShape3D).length ∧
    (geomsOf simpleSettings [triShapeEx, triShapeEx2]).length =
      ([triShapeEx, triShapeEx2] : List SketchShape3D).length ∧
    extrudeSketch [triShapeEx, triShapeEx2] simpleSettings =
      computeBoundingBoxM (computeVertexNormalsM
        (mergeGeometries (geomsOf simpleSettings [triShapeEx, triShapeEx2]))) :=
  ⟨by decide,
   (extrudeSketch_merges_all_valid [triShapeEx, triShapeEx2] simpleSettings (by decide)
     (by
       intro s hs
       simp only [List.mem_cons, List.not_mem_nil, or_false] at hs
       rcases hs with rfl | rfl
       · exact ⟨by decide, by norm_num [computeNormal, scanTriples, scanTriplesAux,
           Vec3.cross, Vec3.sub_def, Vec3.mk_eq_zero, Vec3.mk.injEq, shapePts, pt,
           triShapeEx, Option.isSome]⟩
       · exact ⟨by decide, by norm_num [computeNormal, scanTriples, scanTriplesAux,
           Vec3.cross, Vec3.sub_def, Vec3.mk_eq_zero, Vec3.mk.injEq, shapePts, pt,
           triShapeEx2, Option.isSome]⟩)).1,
   (extrudeSketch_merges_all_valid [triShapeEx, triShapeEx2] simpleSettings (by decide)
     (by
       intro s hs
       simp only [List.mem_cons, List.not_mem_nil, or_false] at hs
       rcases hs with rfl | rfl
       · exact ⟨by decide, by norm_num [computeNormal, scanTriples, scanTriplesAux,
           Vec3.cross, Vec3.sub_def, Vec3.mk_eq_zero, Vec3.mk.injEq, shapePts, pt,
           triShapeEx, Option.isSome]⟩
       · exact ⟨by decide, by norm_num [computeNormal, scanTriples, scanTriplesAux,
           Vec3.cross, Vec3.sub_def, Vec3.mk_eq_zero, Vec3.mk.injEq, shapePts, pt,
           triShapeEx2, Option.isSome]⟩)).2.1⟩

theorem scanTriplesAux_eq_none (a : Vec3) :
    ∀ (l : List Vec3) (b : Vec3),
      scanTriplesAux a b l = none ↔
        ∀ j, j < l.length →
          Vec3.cross ((b :: l).getD j 0 - a) ((b :: l).getD (j + 1) 0 - a) = 0
  | [], b => by simp [scanTriplesAux]
  | c :: t, b => by
    by_cases hz : Vec3.cross (b - a) (c - a) = 0
    · rw [show scanTriplesAux a b (c :: t) = scanTriplesAux a c t by
        simp [scanTriplesAux, hz]]
      rw [scanTriplesAux_eq_none a t c]
      constructor
      · intro h j hj
        cases j with
        | zero => simpa using hz
        | succ k =>
          have hk : k < t.length := by simpa using hj
          simpa using h k hk
      · intro h j hj
        have := h (j + 1) (by simpa using hj)
        simpa using this
    · rw [show scanTriplesAux a b (c :: t) =
          some (Vec3.cross (b - a) (c - a)) by simp [scanTriplesAux, hz]]
      simp only [reduceCtorEq, false_iff, not_forall]
      exact ⟨0, by simp, by simpa using hz⟩

theorem scanTriplesAux_eq_some (a : Vec3) :
    ∀ (l : List Vec3) (b : Vec3) (n : Vec3),
      scanTriplesAux a b l = some n →
        ∃ j, j < l.length ∧
          n = Vec3.cross ((b :: l).getD j 0 - a) ((b :: l).getD (j + 1) 0 - a) ∧
          n ≠ 0 ∧
          ∀ k, k < j →
            Vec3.cross ((b :: l).getD k 0 - a) ((b :: l).getD (k + 1) 0 - a) = 0
  | [], b, n => by simp [scanTriplesAux]
  | c :: t, b, n => by
    intro h
    by_cases hz : Vec3.cross (b - a) (c - a) = 0
    · have h' : scanTriplesAux a c t = some n := by
        simpa [scanTriplesAux, hz] using h
      rcases scanTriplesAux_eq_some a t c n h' with ⟨j, hj, hcr, hnz, hprev⟩
      refine ⟨j + 1, by simpa using hj, by simpa using hcr, hnz, ?_⟩
      intro k hk
      cases k with
      | zero => simpa using hz
      | succ k' =>
        have : k' < j := by omega
        simpa using hprev k' this
    · have hn : n = Vec3.cross (b - a) (c - a) := by
        have := h
        simp [scanTriplesAux, hz] at this
        exact this.symm
      refine ⟨0, by simp, by simpa using hn, hn ▸ hz, ?_⟩
      intro k hk
      omega

theorem crossAt_cons_succ (a : Vec3) (rest : List Vec3) (j : ℕ) :
    crossAt (a :: rest) (j + 1) =
      Vec3.cross (rest.getD j 0 - a) (rest.getD (j + 1) 0 - a) := by
  simp [crossAt]

/-- C3 (amended): `computeNormal` scans the triples `(p0, pi, pi+1)` for
`i = 1 .. n-2` in order, but applies the `1e-6` epsilon test to the
*normalized* cross product, so in exact arithmetic it accepts exactly the
nonzero cross products: it returns (the normalization of) the cross product
of the first triple whose cross product is nonzero — every earlier triple's
cross product being zero — and returns null iff every triple's cross
product is zero (in particular for collinear points, and for fewer than 3
points, where no triple exists). -/
theorem computeNormal_first_nonzero_cross (pts : List Vec3) :
    (computeNormal pts = none ↔ ∀ i, 1 ≤ i → i + 1 < pts.length → crossAt pts i = 0) ∧
    (∀ n, computeNormal pts = some n →
      ∃ i, 1 ≤ i ∧ i + 1 < pts.length ∧ n = crossAt pts i ∧ n ≠ 0 ∧
        ∀ j, 1 ≤ j → j < i → crossAt pts j = 0) := by
  match pts with
  | [] =>
    constructor
    · simp [computeNormal]
    · intro n hn
      simp [computeNormal] at hn
  | [a] =>
    constructor
    · simp [computeNormal, scanTriples]
    · intro n hn
      simp [computeNormal, scanTriples] at hn
  | a :: b :: l =>
    have hlen : (a :: b :: l).length = l.length + 2 := by simp
    constructor
    · show scanTriplesAux a b l = none ↔ _
      rw [scanTriplesAux_eq_none a l b]
      constructor
      · intro h i h1 h2
        rcases Nat.exists_eq_add_of_le h1 with ⟨j, rfl⟩
        rw [Nat.add_comm 1 j, crossAt_cons_succ]
        exact h j (by omega)
      · intro h j hj
        have := h (j + 1) (by omega) (by rw [hlen]; omega)
        rwa [crossAt_cons_succ] at this
    · intro n hn
      rcases scanTriplesAux_eq_some a l b n hn with ⟨j, hj, hcr, hnz, hprev⟩
      refine ⟨j + 1, by omega, by rw [hlen]; omega, ?_, hnz, ?_⟩
      · rwa [crossAt_cons_succ]
      · intro k h1 hk
        rcases Nat.exists_eq_add_of_le h1 with ⟨k', rfl⟩
        rw [Nat.add_comm 1 k', crossAt_cons_succ]
        exact hprev k' (by omega)

/-- Counterexample to C3: at the nearly collinear points
`(0,0,0), (1,0,0), (2,1/1000,0)` the only triple's raw cross product is
`(0,0,1/1000)` with squared length exactly `1e-6`, which does *not* exceed
the epsilon — so by the claim's description `computeNormal` must report
failure (null) — yet the code returns this cross product (normalized),
because the source applies the epsilon test after normalization.  The
specification-worded variant returns `none` here while the code's scan
returns the nonzero cross. -/
theorem computeNormal_epsilon_mismatch :
    computeNormal nearCollinearPts = some ⟨0, 0, 1/1000⟩ ∧
    computeNormalSpec nearCollinearPts = none ∧
    (Vec3.cross (nearCollinearPts.getD 1 0 - nearCollinearPts.getD 0 0)
      (nearCollinearPts.getD 2 0 - nearCollinearPts.getD 0 0)).lengthSq ≤ 1 / 1000000 := by
  refine ⟨?_, ?_, ?_⟩
  · norm_num [computeNormal, scanTriples, scanTriplesAux, Vec3.cross, Vec3.sub_def,
      Vec3.mk_eq_zero, Vec3.mk.injEq, nearCollinearPts]
  · norm_num [computeNormalSpec, scanTriplesSpec, scanTriplesSpecAux, Vec3.cross,
      Vec3.sub_def, Vec3.lengthSq, Vec3.dot, nearCollinearPts]
  · norm_num [Vec3.cross, Vec3.sub_def, Vec3.lengthSq, Vec3.dot, nearCollinearPts]

/-- Witness for C3 (amended), on the collinear closed triple: every triple
has zero cross product, so the scan reports failure. -/
theorem computeNormal_first_nonzero_cross_witness :
    computeNormal (shapePts collinearShapeEx) = none :=
  (computeNormal_first_nonzero_cross (shapePts collinearShapeEx)).1.mpr (by
    intro i h1 h2
    have hl : (shapePts collinearShapeEx).length = 3 := by decide
    rw [hl] at h2
    have : i = 1 := by omega
    subst this
    norm_num [crossAt, shapePts, collinearShapeEx, pt, Vec3.cross, Vec3.sub_def,
      Vec3.mk_eq_zero])
